import Mathlib

/-!
Verification development for the Afroboost bulk-messaging services
(`frontend/src/services/whatsappService.js` and the structurally identical
`emailService.js`).  The JavaScript functions are shallowly embedded as
executable Lean definitions; external effects (localStorage reads, JSON
parsing, the network) are passed in explicitly as oracle values, and the
observable effect sequence of a bulk run (progress callbacks, send
attempts, inter-send delays) is recorded as a trace of events.
-/

set_option maxRecDepth 4000

namespace Afroboost

/-! ## Phone normalization (`formatPhoneE164`, whatsappService.js lines 60-76) -/

/-- The character class kept by `phone.replace(/[^\d+]/g, '')`:
decimal digits and the plus sign. -/
def keepChar (c : Char) : Bool := c.isDigit || c == '+'

/-- Lines 65-74 of the source: once the input has been cleaned to digits
and plus signs, ensure a leading country code.  `[]` corresponds to the
empty cleaned string (starts with neither `+` nor `0`, length 0 is not
greater than 10, so `'+41' + cleaned`). -/
def ensurePlus : List Char → List Char
  | [] => ['+', '4', '1']
  | c :: rest =>
    if c == '+' then c :: rest
    else if c == '0' then '+' :: '4' :: '1' :: rest
    else if (c :: rest).length > 10 then '+' :: c :: rest
    else '+' :: '4' :: '1' :: c :: rest

/-- The cleaning pass followed by the country-code pass. -/
def formatCore (l : List Char) : List Char := ensurePlus (l.filter keepChar)

/-- `formatPhoneE164` from whatsappService.js lines 60-76.  `!phone` is
only true for the empty string among JS strings, so the guard is an
emptiness test. -/
def formatPhoneE164 (phone : String) : String :=
  if phone = "" then "" else String.mk (formatCore phone.data)

/-! ## Message personalization (whatsappService.js lines 99-104 and
emailService.js lines 340-345, which are character-for-character the same
logic: `message.replace(/{prénom}/gi, contactName.split(' ')[0])` guarded
by JS truthiness of the name). -/

/-- Case folding as performed by the `/i` flag on the pattern
`{prénom}`: ASCII letters fold to lower case and the only non-ASCII
pattern character `é` also matches its upper-case form `É`.  (No other
code point case-folds onto a character of this pattern.) -/
def foldChar (c : Char) : Char := if c == 'É' then 'é' else c.toLower

/-- The literal placeholder pattern `{prénom}` (eight characters). -/
def placeholder : List Char := ['{', 'p', 'r', 'é', 'n', 'o', 'm', '}']

/-- Does the case-insensitive pattern match at the head of `l`? -/
def matchesAt (l : List Char) : Bool := (l.take 8).map foldChar == placeholder

/-- Left-to-right, non-overlapping, case-insensitive global replacement of
`{prénom}` by `firstName`, as `/{prénom}/gi` performs it.  The `fuel`
argument is an upper bound on the number of characters still to scan
(structural recursion stand-in for recursion on list length); callers pass
the list length, which is always enough because each step consumes at
least one character.  JS `$`-substitution sequences in the replacement
string are not modelled (no input considered here contains `$`). -/
def replaceCore (firstName : List Char) : Nat → List Char → List Char
  | 0, l => l
  | _ + 1, [] => []
  | fuel + 1, c :: rest =>
    if matchesAt (c :: rest) then firstName ++ replaceCore firstName fuel (rest.drop 7)
    else c :: replaceCore firstName fuel rest

/-- String-level wrapper for the global case-insensitive replacement. -/
def replaceCI (s : String) (firstName : String) : String :=
  String.mk (replaceCore firstName.data s.data.length s.data)

/-- `contactName.split(' ')[0]`: JS `split` with the one-character
separator `' '` cuts exactly at U+0020 space characters, so the first
field is the longest space-free head of the string. -/
def firstToken (name : String) : String :=
  String.mk (name.data.takeWhile (fun c => !(c == ' ')))

/-- The personalization step shared by both services: if the contact name
is JS-truthy (present and non-empty) every occurrence of the placeholder
is replaced by the name's first space-delimited field, otherwise the
message is left untouched. -/
def renderMessage (message : String) (contactName : Option String) : String :=
  match contactName with
  | some name => if name = "" then message else replaceCI message (firstToken name)
  | none => message

/-! ## Configuration (`DEFAULT_CONFIG`, `getWhatsAppConfig`,
`isWhatsAppConfigured`, whatsappService.js lines 6-53). -/

/-- Twilio credential bundle, the shape of `DEFAULT_CONFIG` and of the
object stored under `afroboost_whatsapp_config`.  JS truthiness of a
string field is non-emptiness. -/
structure Config where
  accountSid : String
  authToken : String
  fromNumber : String
  apiMode : String
deriving DecidableEq, Repr

/-- `!!(config.accountSid && config.authToken && config.fromNumber)`:
all three credential fields non-empty. -/
def configComplete (c : Config) : Bool :=
  (c.accountSid != "") && (c.authToken != "") && (c.fromNumber != "")

/-- Outcome of `localStorage.getItem` + `JSON.parse` at lines 21-23,
passed in as an oracle: the read may throw, come back null/empty (JS
falsy, so the `if (stored)` guard fails), fail to parse (`JSON.parse`
throws), or produce a parsed object whose string fields are modelled
directly (an absent field is the empty string). -/
inductive ConfigRead where
  | readThrows
  | absent
  | parseThrows
  | parsed (c : Config)
deriving DecidableEq, Repr

/-- `getWhatsAppConfig` (lines 19-32): a parsed stored configuration is
returned only when all three credential fields are truthy; every other
outcome — absent value, parse failure, thrown read, incomplete stored
object — falls through to `DEFAULT_CONFIG` (here the `defaultConfig`
parameter, whose fields come from environment variables). -/
def getWhatsAppConfig (defaultConfig : Config) (read : ConfigRead) : Config :=
  match read with
  | .parsed c => if configComplete c then c else defaultConfig
  | _ => defaultConfig

/-- `isWhatsAppConfigured` (lines 50-53). -/
def isWhatsAppConfigured (defaultConfig : Config) (read : ConfigRead) : Bool :=
  configComplete (getWhatsAppConfig defaultConfig read)

/-! ## Single send (`sendWhatsAppMessage`, whatsappService.js lines 87-150). -/

/-- The normalized result object of one send: `{success, sid?, status?,
error?, code?}`. -/
structure SendResult where
  success : Bool
  sid : Option String := none
  status : Option String := none
  error : Option String := none
  code : Option Nat := none
deriving DecidableEq, Repr

/-- Behaviour of the one `fetch` to the Twilio endpoint, passed in as an
oracle: a 2xx JSON response with `sid` and `status`, a non-2xx response
whose body may carry `message` (the empty string models a falsy/absent
`data.message`, which falls back to `HTTP <status>`) and `code`, or a
thrown transport/JSON error with message `msg`. -/
inductive NetResponse where
  | ok (sid status : String)
  | httpError (statusCode : Nat) (message : String) (code : Option Nat)
  | netThrow (msg : String)
deriving DecidableEq, Repr

/-- The message thrown by `sendWhatsAppMessage` when the configuration is
incomplete (line 91; the apostrophe is written as an escape). -/
def notConfiguredThrown : String :=
  "WhatsApp API non configuré. Veuillez configurer les clés dans l\x27onglet Campagnes."

/-- Error string returned for an implausibly short normalized number
(line 96). -/
def invalidNumberMsg : String := "Numéro de téléphone invalide"

/-- Full observable outcome of one `sendWhatsAppMessage` call: the
returned value (or thrown error, as `Except.error`), how many network
calls were made, and the message body actually posted (when a call was
made). -/
structure SendCall where
  result : Except String SendResult
  netCalls : Nat
  requestBody : Option String
deriving Repr

/-- `sendWhatsAppMessage` (lines 87-150): throws when the configuration
is incomplete; short-circuits without a network call when the normalized
number is empty or shorter than 10 characters; otherwise personalizes the
body, performs exactly one network call and maps the response, catching
transport errors into a failure result. -/
def sendWhatsAppMessage (config : Config) (net : NetResponse)
    (toPhone message : String) (contactName : Option String) : SendCall :=
  if !configComplete config then
    ⟨.error notConfiguredThrown, 0, none⟩
  else
    let toNumber := formatPhoneE164 toPhone
    if toNumber = "" ∨ toNumber.length < 10 then
      ⟨.ok { success := false, error := some invalidNumberMsg }, 0, none⟩
    else
      let personalizedMessage := renderMessage message contactName
      match net with
      | .ok sid status =>
          ⟨.ok { success := true, sid := some sid, status := some status }, 1,
            some personalizedMessage⟩
      | .httpError statusCode msg code =>
          ⟨.ok { success := false,
                 error := some (if msg = "" then "HTTP " ++ toString statusCode else msg),
                 code := code }, 1, some personalizedMessage⟩
      | .netThrow msg =>
          ⟨.ok { success := false, error := some msg }, 1, some personalizedMessage⟩

/-! ## Bulk dispatch (`sendBulkWhatsApp`, whatsappService.js lines
159-233, and `sendBulkEmails`, emailService.js lines 378-458).  The two
loops are line-for-line the same control flow; they differ only in the
inter-send delay (500 ms vs 200 ms), the aggregate error message of the
early return, whether the `sent` detail records a provider message id
(`sid`), and which field (`phone` / `email`) carries the address — here
`Recipient.address` / `Detail.address`.  The common engine is
`bulkDispatch`; the per-provider entry points instantiate it. -/

/-- One list entry `{phone|email, name}`; `name` may be absent. -/
structure Recipient where
  address : String
  name : Option String
deriving DecidableEq, Repr

/-- One entry of `results.details`. -/
structure Detail where
  address : String
  name : Option String
  status : String
  sid : Option String
  error : Option String
deriving DecidableEq, Repr

/-- Observable events of a bulk run, in execution order: a progress
callback invocation with its four arguments, one invocation of the
single-send adapter (recording how many network calls it made), and one
suspension for `ms` milliseconds. -/
inductive Event where
  | progress (current total : Nat) (phase : String) (label : Option String)
  | attempt (address : String) (netCalls : Nat)
  | delayEv (ms : Nat)
deriving DecidableEq, Repr

/-- Accumulated state and trace of a bulk run: the `results` object
(`sent`, `failed`, `errors`, `details`) plus the event trace. -/
structure BulkRun where
  sent : Nat := 0
  failed : Nat := 0
  errors : List String := []
  details : List Detail := []
  trace : List Event := []
deriving DecidableEq, Repr

/-- The empty accumulator `{sent: 0, failed: 0, errors: [], details: []}`. -/
def BulkRun.empty : BulkRun := {}

/-- Sequential composition of two run fragments. -/
def BulkRun.append (a b : BulkRun) : BulkRun :=
  ⟨a.sent + b.sent, a.failed + b.failed, a.errors ++ b.errors,
   a.details ++ b.details, a.trace ++ b.trace⟩

/-- Behaviour of one adapter invocation (`await sendWhatsAppMessage(...)`
resp. `await sendEmail(...)`): either a returned result object or a
thrown error with message `msg` (`Except.error msg`), together with the
number of network calls it performed. -/
structure AdapterBehavior where
  outcome : Except String SendResult
  netCalls : Nat

/-- `recipient.name || recipient.phone` (resp. `.email`): the name when
JS-truthy, otherwise the address. -/
def progressLabel (r : Recipient) : String :=
  match r.name with
  | some n => if n = "" then r.address else n
  | none => r.address

/-- Template-literal rendering of `result.error`, which may be absent
(JS `undefined`). -/
def optErr : Option String → String
  | some e => e
  | none => "undefined"

/-- The body of one loop iteration (index `i` of `total`): the optional
`sending` progress event, the adapter invocation with its three-way
outcome (success / normalized failure / caught thrown error), and the
inter-send delay when this is not the last recipient.  `storeSid` is true
for the WhatsApp loop, whose `sent` detail records `result.sid`. -/
def stepRun (storeSid : Bool) (delayMs : Nat) (hasProgress : Bool) (total : Nat)
    (beh : AdapterBehavior) (i : Nat) (r : Recipient) : BulkRun :=
  let prog : List Event :=
    if hasProgress then [.progress (i + 1) total "sending" (some (progressLabel r))] else []
  let del : List Event := if i < total - 1 then [.delayEv delayMs] else []
  match beh.outcome with
  | .ok res =>
    if res.success then
      { sent := 1,
        details := [⟨r.address, r.name, "sent", if storeSid then res.sid else none, none⟩],
        trace := prog ++ [.attempt r.address beh.netCalls] ++ del }
    else
      { failed := 1,
        errors := [r.address ++ ": " ++ optErr res.error],
        details := [⟨r.address, r.name, "failed", none, res.error⟩],
        trace := prog ++ [.attempt r.address beh.netCalls] ++ del }
  | .error msg =>
      { failed := 1,
        errors := [r.address ++ ": " ++ msg],
        details := [⟨r.address, r.name, "failed", none, some msg⟩],
        trace := prog ++ [.attempt r.address beh.netCalls] ++ del }

/-- The `for` loop over the recipients, starting at absolute index `i`;
the adapter behaviour is supplied per index and recipient. -/
def bulkLoop (storeSid : Bool) (delayMs : Nat)
    (adapter : Nat → Recipient → AdapterBehavior) (hasProgress : Bool)
    (total : Nat) : Nat → List Recipient → BulkRun
  | _, [] => BulkRun.empty
  | i, r :: rest =>
    BulkRun.append (stepRun storeSid delayMs hasProgress total (adapter i r) i r)
      (bulkLoop storeSid delayMs adapter hasProgress total (i + 1) rest)

/-- The shared bulk engine: the configuration check before the loop
(early return with every recipient counted failed, one aggregate error
and an untouched empty `details`), the loop, and the final `completed`
progress event. -/
def bulkDispatch (storeSid : Bool) (delayMs : Nat) (configErrorMsg : String)
    (configured : Bool) (adapter : Nat → Recipient → AdapterBehavior)
    (recipients : List Recipient) (hasProgress : Bool) : BulkRun :=
  let total := recipients.length
  if !configured then
    { BulkRun.empty with failed := total, errors := [configErrorMsg] }
  else
    let run := bulkLoop storeSid delayMs adapter hasProgress total 0 recipients
    { run with
      trace := run.trace ++
        (if hasProgress then [.progress total total "completed" none] else []) }

/-- The WhatsApp bulk loop (lines 159-233) with the per-recipient
behaviour of `await sendWhatsAppMessage(...)` left as a parameter: the
`isWhatsAppConfigured` check, the 500 ms inter-send delay and the
WhatsApp aggregate error message are fixed by the source. -/
def sendBulkWhatsAppWith (config : Config)
    (adapter : Nat → Recipient → AdapterBehavior)
    (recipients : List Recipient) (hasProgress : Bool) : BulkRun :=
  bulkDispatch true 500 "WhatsApp API non configuré" (configComplete config)
    adapter recipients hasProgress

/-- The concrete per-iteration behaviour of the WhatsApp loop body at
lines 186-191: `await sendWhatsAppMessage(...)` applied to this
recipient's phone and name and the campaign's message (the media URL
does not influence the modelled observables and is omitted). -/
def twilioAdapter (config : Config) (net : Nat → NetResponse)
    (campaignMessage : String) : Nat → Recipient → AdapterBehavior :=
  fun i r =>
    let call := sendWhatsAppMessage config (net i) r.address campaignMessage r.name
    ⟨call.result, call.netCalls⟩

/-- `sendBulkWhatsApp` (lines 159-233): checks `isWhatsAppConfigured`,
then runs the loop with a 500 ms inter-send delay, each iteration calling
`sendWhatsAppMessage` via `twilioAdapter`. -/
def sendBulkWhatsApp (config : Config) (net : Nat → NetResponse)
    (recipients : List Recipient) (campaignMessage : String)
    (hasProgress : Bool) : BulkRun :=
  sendBulkWhatsAppWith config (twilioAdapter config net campaignMessage)
    recipients hasProgress

/-- `sendBulkEmails` (emailService.js lines 378-458): the `configured`
flag is the result of `initEmailJS()` (the cached config's `publicKey` is
truthy); the loop is the same engine with a 200 ms delay, no `sid` on
sent details, and the EmailJS aggregate error message.  The per-recipient
`sendEmail` behaviour is abstracted as `adapter`. -/
def sendBulkEmails (configured : Bool)
    (adapter : Nat → Recipient → AdapterBehavior)
    (recipients : List Recipient) (hasProgress : Bool) : BulkRun :=
  bulkDispatch false 200 "EmailJS non configuré" configured adapter
    recipients hasProgress

/-! ### Trace observations -/

/-- The durations of the delay events of a trace, in order. -/
def delaysOf (t : List Event) : List Nat :=
  t.filterMap (fun e => match e with | .delayEv ms => some ms | _ => none)

/-- The progress events of a trace, in order, as argument tuples. -/
def progressOf (t : List Event) : List (Nat × Nat × String × Option String) :=
  t.filterMap (fun e => match e with
    | .progress c tot ph lb => some (c, tot, ph, lb)
    | _ => none)

/-- Is this event a send attempt? -/
def Event.isAttempt : Event → Bool
  | .attempt _ _ => true
  | _ => false

/-- Number of adapter invocations recorded in a trace. -/
def attemptsOf (t : List Event) : Nat := (t.filter Event.isAttempt).length

/-- Total number of network calls recorded in a trace. -/
def netCallsOf (t : List Event) : Nat :=
  (t.map (fun e => match e with | .attempt _ n => n | _ => 0)).sum

/-- The portion of the trace after the last send attempt (the whole trace
when there is no attempt). -/
def afterLastAttempt (t : List Event) : List Event :=
  (t.reverse.takeWhile (fun e => !e.isAttempt)).reverse

/-- A thrown adapter error, as the loop's `catch` records it: a
normalized failure result carrying the thrown message. -/
def normalizeBehavior (b : AdapterBehavior) : AdapterBehavior :=
  match b.outcome with
  | .error msg => ⟨.ok { success := false, error := some msg }, b.netCalls⟩
  | .ok _ => b

/-- The expected `sending` progress tuples for recipients starting at
1-based index `i + 1`: used to state the progress-callback contract. -/
def sendingEventsFrom (total : Nat) : Nat → List Recipient → List (Nat × Nat × String × Option String)
  | _, [] => []
  | i, r :: rest =>
    (i + 1, total, "sending", some (progressLabel r)) :: sendingEventsFrom total (i + 1) rest

/-- The reference event order of the configured loop, written from the
spec's wording rather than from the accumulator: for each recipient, the
`sending` progress event (when a callback is supplied) immediately
followed by that recipient's send attempt; exactly one fixed delay
between the attempts of consecutive recipients, and no delay after the
final recipient's attempt.  The engine's recorded trace is proved equal
to this shape. -/
def loopTraceSpec (delayMs : Nat) (adapter : Nat → Recipient → AdapterBehavior)
    (hp : Bool) (total : Nat) : Nat → List Recipient → List Event
  | _, [] => []
  | i, [r] =>
    (if hp then [Event.progress (i + 1) total "sending" (some (progressLabel r))] else []) ++
      [Event.attempt r.address (adapter i r).netCalls]
  | i, r :: r2 :: rest =>
    (if hp then [Event.progress (i + 1) total "sending" (some (progressLabel r))] else []) ++
      Event.attempt r.address (adapter i r).netCalls ::
        Event.delayEv delayMs ::
          loopTraceSpec delayMs adapter hp total (i + 1) (r2 :: rest)

/-! ## Lemmas about the engine -/

@[simp]
lemma BulkRun.sent_append (a b : BulkRun) : (BulkRun.append a b).sent = a.sent + b.sent := rfl

@[simp]
lemma BulkRun.failed_append (a b : BulkRun) : (BulkRun.append a b).failed = a.failed + b.failed := rfl

@[simp]
lemma BulkRun.errors_append (a b : BulkRun) : (BulkRun.append a b).errors = a.errors ++ b.errors := rfl

@[simp]
lemma BulkRun.details_append (a b : BulkRun) : (BulkRun.append a b).details = a.details ++ b.details := rfl

@[simp]
lemma BulkRun.trace_append (a b : BulkRun) : (BulkRun.append a b).trace = a.trace ++ b.trace := rfl

/-- The identifying part of a ledger entry: address and name. -/
def detailKey (d : Detail) : String × Option String := (d.address, d.name)

/-- The identifying part of a recipient: address and name. -/
def recipKey (r : Recipient) : String × Option String := (r.address, r.name)

lemma stepRun_sent_failed (sS : Bool) (dM : Nat) (hp : Bool) (total : Nat)
    (b : AdapterBehavior) (i : Nat) (r : Recipient) :
    (stepRun sS dM hp total b i r).sent + (stepRun sS dM hp total b i r).failed = 1 := by
  obtain ⟨o, n⟩ := b
  cases o with
  | ok res => cases hs : res.success <;> simp [stepRun, hs]
  | error msg => simp [stepRun]

lemma stepRun_details_map (sS : Bool) (dM : Nat) (hp : Bool) (total : Nat)
    (b : AdapterBehavior) (i : Nat) (r : Recipient) :
    (stepRun sS dM hp total b i r).details.map detailKey = [recipKey r] := by
  obtain ⟨o, n⟩ := b
  cases o with
  | ok res => cases hs : res.success <;> simp [stepRun, hs, detailKey, recipKey]
  | error msg => simp [stepRun, detailKey, recipKey]

lemma stepRun_trace (sS : Bool) (dM : Nat) (hp : Bool) (total : Nat)
    (b : AdapterBehavior) (i : Nat) (r : Recipient) :
    (stepRun sS dM hp total b i r).trace =
      (if hp then [Event.progress (i + 1) total "sending" (some (progressLabel r))] else []) ++
        [Event.attempt r.address b.netCalls] ++
        (if i < total - 1 then [Event.delayEv dM] else []) := by
  obtain ⟨o, n⟩ := b
  cases o with
  | ok res => cases hs : res.success <;> simp [stepRun, hs]
  | error msg => simp [stepRun]

lemma bulkLoop_sent_failed (sS : Bool) (dM : Nat) (a : Nat → Recipient → AdapterBehavior)
    (hp : Bool) (total : Nat) :
    ∀ (i : Nat) (l : List Recipient),
      (bulkLoop sS dM a hp total i l).sent + (bulkLoop sS dM a hp total i l).failed = l.length := by
  intro i l
  induction l generalizing i with
  | nil => simp [bulkLoop, BulkRun.empty]
  | cons r rest ih =>
    have hstep := stepRun_sent_failed sS dM hp total (a i r) i r
    have hrec := ih (i + 1)
    simp only [bulkLoop, BulkRun.sent_append, BulkRun.failed_append, List.length_cons]
    omega

lemma bulkLoop_details_map (sS : Bool) (dM : Nat) (a : Nat → Recipient → AdapterBehavior)
    (hp : Bool) (total : Nat) :
    ∀ (i : Nat) (l : List Recipient),
      (bulkLoop sS dM a hp total i l).details.map detailKey = l.map recipKey := by
  intro i l
  induction l generalizing i with
  | nil => simp [bulkLoop, BulkRun.empty]
  | cons r rest ih =>
    simp only [bulkLoop, BulkRun.details_append, List.map_append, List.map_cons,
      stepRun_details_map, ih (i + 1)]
    rfl

@[simp]
lemma delaysOf_append (s t : List Event) : delaysOf (s ++ t) = delaysOf s ++ delaysOf t :=
  List.filterMap_append s t _

@[simp]
lemma progressOf_append (s t : List Event) : progressOf (s ++ t) = progressOf s ++ progressOf t :=
  List.filterMap_append s t _

lemma delaysOf_stepRun (sS : Bool) (dM : Nat) (hp : Bool) (total : Nat)
    (b : AdapterBehavior) (i : Nat) (r : Recipient) :
    delaysOf (stepRun sS dM hp total b i r).trace =
      if i < total - 1 then [dM] else [] := by
  rw [stepRun_trace]
  cases hp <;> by_cases h : i < total - 1 <;> simp [delaysOf, h]

lemma bulkLoop_delays (sS : Bool) (dM : Nat) (a : Nat → Recipient → AdapterBehavior)
    (hp : Bool) :
    ∀ (i : Nat) (l : List Recipient) (total : Nat), total = i + l.length →
      delaysOf (bulkLoop sS dM a hp total i l).trace = List.replicate (l.length - 1) dM := by
  intro i l
  induction l generalizing i with
  | nil => intro total _; simp [bulkLoop, BulkRun.empty, delaysOf]
  | cons r rest ih =>
    intro total htot
    simp only [bulkLoop, BulkRun.trace_append, delaysOf_append, delaysOf_stepRun]
    cases rest with
    | nil =>
      have hnot : ¬ i < total - 1 := by simp [htot]
      simp [bulkLoop, BulkRun.empty, delaysOf, hnot]
    | cons r2 rest2 =>
      simp only [List.length_cons] at htot
      have hlt : i < total - 1 := by omega
      have hrec := ih (i + 1) total (by simp only [List.length_cons]; omega)
      simp [hlt, hrec, List.replicate_succ]

lemma attemptsOf_append (s t : List Event) :
    attemptsOf (s ++ t) = attemptsOf s + attemptsOf t := by
  simp [attemptsOf, List.filter_append]

lemma attemptsOf_stepRun (sS : Bool) (dM : Nat) (hp : Bool) (total : Nat)
    (b : AdapterBehavior) (i : Nat) (r : Recipient) :
    attemptsOf (stepRun sS dM hp total b i r).trace = 1 := by
  rw [stepRun_trace]
  cases hp <;> by_cases h : i < total - 1 <;>
    simp [attemptsOf, h, Event.isAttempt, List.filter_append]

lemma bulkLoop_attempts (sS : Bool) (dM : Nat) (a : Nat → Recipient → AdapterBehavior)
    (hp : Bool) (total : Nat) :
    ∀ (i : Nat) (l : List Recipient),
      attemptsOf (bulkLoop sS dM a hp total i l).trace = l.length := by
  intro i l
  induction l generalizing i with
  | nil => simp [bulkLoop, BulkRun.empty, attemptsOf]
  | cons r rest ih =>
    simp only [bulkLoop, BulkRun.trace_append, attemptsOf_append, attemptsOf_stepRun,
      ih (i + 1), List.length_cons]
    omega

lemma progressOf_stepRun (sS : Bool) (dM : Nat) (total : Nat)
    (b : AdapterBehavior) (i : Nat) (r : Recipient) :
    progressOf (stepRun sS dM true total b i r).trace =
      [(i + 1, total, "sending", some (progressLabel r))] := by
  rw [stepRun_trace]
  by_cases h : i < total - 1 <;> simp [progressOf, h]

lemma bulkLoop_progress (sS : Bool) (dM : Nat) (a : Nat → Recipient → AdapterBehavior)
    (total : Nat) :
    ∀ (i : Nat) (l : List Recipient),
      progressOf (bulkLoop sS dM a true total i l).trace = sendingEventsFrom total i l := by
  intro i l
  induction l generalizing i with
  | nil => simp [bulkLoop, BulkRun.empty, progressOf, sendingEventsFrom]
  | cons r rest ih =>
    simp only [bulkLoop, BulkRun.trace_append, progressOf_append, progressOf_stepRun,
      ih (i + 1), sendingEventsFrom]
    rfl

lemma bulkLoop_trace_last (sS : Bool) (dM : Nat) (a : Nat → Recipient → AdapterBehavior)
    (hp : Bool) :
    ∀ (i : Nat) (l : List Recipient) (total : Nat), total = i + l.length → l ≠ [] →
      ∃ t1 addr n, (bulkLoop sS dM a hp total i l).trace = t1 ++ [Event.attempt addr n] := by
  intro i l
  induction l generalizing i with
  | nil => intro total _ hne; exact absurd rfl hne
  | cons r rest ih =>
    intro total htot _
    cases rest with
    | nil =>
      have hnot : ¬ i < total - 1 := by simp [htot]
      refine ⟨(if hp then [Event.progress (i + 1) total "sending" (some (progressLabel r))] else []),
        r.address, (a i r).netCalls, ?_⟩
      simp [bulkLoop, BulkRun.empty, BulkRun.append, stepRun_trace, hnot]
    | cons r2 rest2 =>
      simp only [List.length_cons] at htot
      obtain ⟨t1, addr, n, ht⟩ := ih (i + 1) total (by simp only [List.length_cons]; omega) (by simp)
      refine ⟨(stepRun sS dM hp total (a i r) i r).trace ++ t1, addr, n, ?_⟩
      rw [bulkLoop, BulkRun.trace_append, ht, List.append_assoc]

lemma takeWhile_append_of_all {α : Type} (p : α → Bool) (xs : List α) (y : α) (ys : List α)
    (hxs : ∀ x ∈ xs, p x = true) (hy : p y = false) :
    (xs ++ y :: ys).takeWhile p = xs := by
  induction xs with
  | nil => simp [List.takeWhile_cons, hy]
  | cons x xs ih =>
    have hx : p x = true := hxs x (by simp)
    simp only [List.cons_append, List.takeWhile_cons, hx, if_true]
    rw [ih (fun z hz => hxs z (by simp [hz]))]

lemma afterLastAttempt_append (t1 : List Event) (addr : String) (n : Nat) (x : List Event)
    (hx : ∀ e ∈ x, e.isAttempt = false) :
    afterLastAttempt ((t1 ++ [Event.attempt addr n]) ++ x) = x := by
  unfold afterLastAttempt
  rw [List.reverse_append, List.reverse_append]
  simp only [List.reverse_cons, List.reverse_nil, List.nil_append, List.singleton_append]
  rw [takeWhile_append_of_all _ x.reverse _ _
    (fun e he => by simp [List.mem_reverse] at he; simp [hx e he])
    (by simp [Event.isAttempt])]
  simp

lemma stepRun_normalize (sS : Bool) (dM : Nat) (hp : Bool) (total : Nat)
    (b : AdapterBehavior) (i : Nat) (r : Recipient) :
    stepRun sS dM hp total (normalizeBehavior b) i r = stepRun sS dM hp total b i r := by
  obtain ⟨o, n⟩ := b
  cases o with
  | ok res => rfl
  | error msg => simp [normalizeBehavior, stepRun, optErr]

lemma bulkLoop_normalize (sS : Bool) (dM : Nat) (a : Nat → Recipient → AdapterBehavior)
    (hp : Bool) (total : Nat) :
    ∀ (i : Nat) (l : List Recipient),
      bulkLoop sS dM (fun j r => normalizeBehavior (a j r)) hp total i l =
        bulkLoop sS dM a hp total i l := by
  intro i l
  induction l generalizing i with
  | nil => rfl
  | cons r rest ih => simp only [bulkLoop, stepRun_normalize, ih (i + 1)]

lemma bulkDispatch_false (sS : Bool) (dM : Nat) (cE : String)
    (adapter : Nat → Recipient → AdapterBehavior) (recipients : List Recipient) (hp : Bool) :
    bulkDispatch sS dM cE false adapter recipients hp =
      { BulkRun.empty with failed := recipients.length, errors := [cE] } := rfl

lemma bulkDispatch_trace_true (sS : Bool) (dM : Nat) (cE : String)
    (adapter : Nat → Recipient → AdapterBehavior) (recipients : List Recipient) (hp : Bool) :
    (bulkDispatch sS dM cE true adapter recipients hp).trace =
      (bulkLoop sS dM adapter hp recipients.length 0 recipients).trace ++
        (if hp then [Event.progress recipients.length recipients.length "completed" none]
         else []) := rfl

lemma bulkDispatch_ledger (sS : Bool) (dM : Nat) (cE : String) (configured : Bool)
    (adapter : Nat → Recipient → AdapterBehavior) (recipients : List Recipient) (hp : Bool) :
    (bulkDispatch sS dM cE configured adapter recipients hp).sent +
        (bulkDispatch sS dM cE configured adapter recipients hp).failed = recipients.length ∧
      (configured = true →
        (bulkDispatch sS dM cE configured adapter recipients hp).details.map detailKey =
          recipients.map recipKey) := by
  cases configured with
  | false =>
    refine ⟨?_, fun h => by cases h⟩
    simp [bulkDispatch, BulkRun.empty]
  | true =>
    refine ⟨?_, fun _ => ?_⟩
    · simpa [bulkDispatch] using
        bulkLoop_sent_failed sS dM adapter hp recipients.length 0 recipients
    · simpa [bulkDispatch] using
        bulkLoop_details_map sS dM adapter hp recipients.length 0 recipients

lemma bulkDispatch_delays (sS : Bool) (dM : Nat) (cE : String)
    (adapter : Nat → Recipient → AdapterBehavior) (recipients : List Recipient) (hp : Bool) :
    delaysOf (bulkDispatch sS dM cE true adapter recipients hp).trace =
        List.replicate (recipients.length - 1) dM ∧
      delaysOf (afterLastAttempt (bulkDispatch sS dM cE true adapter recipients hp).trace) = [] := by
  constructor
  · rw [bulkDispatch_trace_true, delaysOf_append,
      bulkLoop_delays sS dM adapter hp 0 recipients recipients.length (by simp)]
    cases hp <;> simp [delaysOf]
  · cases recipients with
    | nil =>
      rw [bulkDispatch_trace_true]
      cases hp <;>
        simp [bulkLoop, BulkRun.empty, afterLastAttempt, delaysOf, Event.isAttempt,
          List.takeWhile]
    | cons r rest =>
      obtain ⟨t1, addr, n, ht⟩ := bulkLoop_trace_last sS dM adapter hp 0 (r :: rest)
        (r :: rest).length (by simp) (by simp)
      rw [bulkDispatch_trace_true, ht,
        afterLastAttempt_append t1 addr n _ (by cases hp <;> simp [Event.isAttempt])]
      cases hp <;> simp [delaysOf]

lemma bulkLoop_trace_spec (sS : Bool) (dM : Nat) (a : Nat → Recipient → AdapterBehavior)
    (hp : Bool) :
    ∀ (i : Nat) (l : List Recipient) (total : Nat), total = i + l.length →
      (bulkLoop sS dM a hp total i l).trace = loopTraceSpec dM a hp total i l := by
  intro i l
  induction l generalizing i with
  | nil => intro total _; rfl
  | cons r rest ih =>
    intro total htot
    cases rest with
    | nil =>
      have hnot : ¬ i < total - 1 := by simp [htot]
      simp [bulkLoop, BulkRun.empty, stepRun_trace, hnot, loopTraceSpec]
    | cons r2 rest2 =>
      simp only [List.length_cons] at htot
      have hlt : i < total - 1 := by omega
      have hrec := ih (i + 1) total (by simp only [List.length_cons]; omega)
      rw [bulkLoop, BulkRun.trace_append, stepRun_trace, hrec, if_pos hlt, loopTraceSpec]
      simp

lemma bulkDispatch_trace_spec (sS : Bool) (dM : Nat) (cE : String)
    (adapter : Nat → Recipient → AdapterBehavior) (recipients : List Recipient) (hp : Bool) :
    (bulkDispatch sS dM cE true adapter recipients hp).trace =
      loopTraceSpec dM adapter hp recipients.length 0 recipients ++
        (if hp then [Event.progress recipients.length recipients.length "completed" none]
         else []) := by
  rw [bulkDispatch_trace_true,
    bulkLoop_trace_spec sS dM adapter hp 0 recipients recipients.length (by simp)]

lemma sendingEventsFrom_length (total : Nat) :
    ∀ (i : Nat) (l : List Recipient), (sendingEventsFrom total i l).length = l.length := by
  intro i l
  induction l generalizing i with
  | nil => rfl
  | cons r rest ih => simp [sendingEventsFrom, ih (i + 1)]

lemma bulkDispatch_progress (sS : Bool) (dM : Nat) (cE : String)
    (adapter : Nat → Recipient → AdapterBehavior) (recipients : List Recipient) :
    progressOf (bulkDispatch sS dM cE true adapter recipients true).trace =
      sendingEventsFrom recipients.length 0 recipients ++
        [(recipients.length, recipients.length, "completed", none)] := by
  rw [bulkDispatch_trace_true, progressOf_append,
    bulkLoop_progress sS dM adapter recipients.length 0 recipients]
  simp [progressOf]

lemma bulkDispatch_normalize (sS : Bool) (dM : Nat) (cE : String) (configured : Bool)
    (adapter : Nat → Recipient → AdapterBehavior) (recipients : List Recipient) (hp : Bool) :
    bulkDispatch sS dM cE configured (fun i r => normalizeBehavior (adapter i r)) recipients hp =
      bulkDispatch sS dM cE configured adapter recipients hp := by
  cases configured with
  | false => rfl
  | true =>
    simp only [bulkDispatch]
    rw [bulkLoop_normalize]

/-! ## Lemmas about phone normalization -/

lemma ensurePlus_head (l : List Char) : (ensurePlus l).head? = some '+' := by
  cases l with
  | nil => rfl
  | cons c rest =>
    simp only [ensurePlus]
    split
    case isTrue h1 =>
      have hc : c = '+' := by simpa using h1
      simp [hc]
    case isFalse h1 =>
      split
      case isTrue h2 => rfl
      case isFalse h2 => split <;> rfl

lemma ensurePlus_all_keep (l : List Char) (h : ∀ c ∈ l, keepChar c = true) :
    ∀ c ∈ ensurePlus l, keepChar c = true := by
  intro c hc
  cases l with
  | nil =>
    simp only [ensurePlus, List.mem_cons, List.not_mem_nil, or_false] at hc
    rcases hc with rfl | rfl | rfl <;> decide
  | cons a rest =>
    simp only [ensurePlus] at hc
    split at hc
    · exact h c hc
    · split at hc
      · simp only [List.mem_cons] at hc
        rcases hc with rfl | rfl | rfl | hc
        · decide
        · decide
        · decide
        · exact h c (List.mem_cons_of_mem a hc)
      · split at hc
        · simp only [List.mem_cons] at hc
          rcases hc with rfl | hc
          · decide
          · exact h c (List.mem_cons.mpr hc)
        · simp only [List.mem_cons] at hc
          rcases hc with rfl | rfl | rfl | hc
          · decide
          · decide
          · decide
          · exact h c (List.mem_cons.mpr hc)

lemma ensurePlus_of_head_plus (l : List Char) (h : l.head? = some '+') :
    ensurePlus l = l := by
  cases l with
  | nil => cases h
  | cons c rest =>
    have hc : c = '+' := by simpa using h
    simp [ensurePlus, hc]

lemma formatCore_head (l : List Char) : (formatCore l).head? = some '+' :=
  ensurePlus_head _

lemma formatCore_all_keep (l : List Char) : ∀ c ∈ formatCore l, keepChar c = true :=
  ensurePlus_all_keep _ (fun _ hc => List.of_mem_filter hc)

lemma formatCore_idem (l : List Char) : formatCore (formatCore l) = formatCore l := by
  rw [formatCore, List.filter_eq_self.mpr (formatCore_all_keep l)]
  exact ensurePlus_of_head_plus _ (formatCore_head l)

lemma formatPhoneE164_ne_empty (p : String) (hp : p ≠ "") : formatPhoneE164 p ≠ "" := by
  intro h
  rw [formatPhoneE164, if_neg hp] at h
  have hdata : formatCore p.data = [] := congrArg String.data h
  have := formatCore_head p.data
  rw [hdata] at this
  cases this

lemma formatPhoneE164_data (p : String) (hp : p ≠ "") :
    (formatPhoneE164 p).data = formatCore p.data := by
  rw [formatPhoneE164, if_neg hp]

/-! ## Concrete fixtures used by witnesses and counterexamples -/

/-- A complete credential bundle. -/
def fixtureConfig : Config := ⟨"ACxxxxxxxx", "authtoken", "+14155238886", "twilio"⟩

/-- The all-empty default configuration (no environment variables set). -/
def emptyConfig : Config := ⟨"", "", "", "twilio"⟩

/-- A network oracle that always answers with a 2xx Twilio response. -/
def fixtureNet : Nat → NetResponse := fun _ => .ok "SM123" "queued"

/-- Two recipients, the second without a name. -/
def fixtureRecipients : List Recipient :=
  [⟨"0791234567", some "Maria Lopez"⟩, ⟨"0787654321", none⟩]

/-- An adapter that always returns a normalized success. -/
def fixtureAdapter : Nat → Recipient → AdapterBehavior :=
  fun _ _ => ⟨.ok { success := true, sid := some "SM123", status := some "queued" }, 1⟩

/-! ## Claims -/

/-- C1 counterexample: with an incomplete configuration (all credential
fields empty) and one recipient, `sendBulkWhatsApp` returns early with an
empty `details` list, so `details.length` is 0, not the recipient count 1
that the claim asserts for every campaign and recipient list. -/
theorem claim1_details_cx :
    ¬ ((sendBulkWhatsApp emptyConfig fixtureNet [⟨"0791234567", some "Maria Lopez"⟩]
          "Hello {prénom}!" true).details.length =
        ([(⟨"0791234567", some "Maria Lopez"⟩ : Recipient)] : List Recipient).length) := by
  decide

/-- C1 (amended): for every recipient list of length N and every
campaign, both bulk dispatch operations return a result with
sent + failed = N; when the configuration is complete the details list
has exactly one entry per recipient, in input order, carrying that
recipient's address and name; when the configuration is incomplete the
early return leaves the details list empty. -/
theorem claim1_ledger_invariant
    (config : Config) (net : Nat → NetResponse) (recipients : List Recipient)
    (campaignMessage : String) (hp : Bool)
    (configured : Bool) (adapter : Nat → Recipient → AdapterBehavior)
    (recipients2 : List Recipient) (hp2 : Bool) :
    ((sendBulkWhatsApp config net recipients campaignMessage hp).sent +
          (sendBulkWhatsApp config net recipients campaignMessage hp).failed =
        recipients.length ∧
      (configComplete config = true →
        (sendBulkWhatsApp config net recipients campaignMessage hp).details.map detailKey =
          recipients.map recipKey) ∧
      (configComplete config = false →
        (sendBulkWhatsApp config net recipients campaignMessage hp).details = [])) ∧
    ((sendBulkEmails configured adapter recipients2 hp2).sent +
          (sendBulkEmails configured adapter recipients2 hp2).failed = recipients2.length ∧
      (configured = true →
        (sendBulkEmails configured adapter recipients2 hp2).details.map detailKey =
          recipients2.map recipKey) ∧
      (configured = false →
        (sendBulkEmails configured adapter recipients2 hp2).details = [])) := by
  constructor
  · refine ⟨(bulkDispatch_ledger _ _ _ _ _ _ _).1, (bulkDispatch_ledger _ _ _ _ _ _ _).2, ?_⟩
    intro h
    simp only [sendBulkWhatsApp, sendBulkWhatsAppWith, h, bulkDispatch_false]
    rfl
  · refine ⟨(bulkDispatch_ledger _ _ _ _ _ _ _).1, (bulkDispatch_ledger _ _ _ _ _ _ _).2, ?_⟩
    intro h
    simp only [sendBulkEmails, h, bulkDispatch_false]
    rfl

/-- C1 witness: the amended invariant evaluated on a complete
configuration and two recipients. -/
theorem claim1_ledger_witness :
    (sendBulkWhatsApp fixtureConfig fixtureNet fixtureRecipients "Hello {prénom}!" true).details.map
        detailKey = fixtureRecipients.map recipKey :=
  (claim1_ledger_invariant fixtureConfig fixtureNet fixtureRecipients "Hello {prénom}!" true
      true fixtureAdapter fixtureRecipients true).1.2.1 (by decide)

/-- C2: with an incomplete configuration `sendBulkWhatsApp` returns
immediately with every recipient counted failed, nothing sent, exactly
one aggregate error message, no adapter invocation and no network call
(the recorded trace is empty). -/
theorem claim2_not_configured
    (config : Config) (net : Nat → NetResponse) (recipients : List Recipient)
    (campaignMessage : String) (hp : Bool)
    (h : configComplete config = false) :
    (sendBulkWhatsApp config net recipients campaignMessage hp).sent = 0 ∧
    (sendBulkWhatsApp config net recipients campaignMessage hp).failed = recipients.length ∧
    (sendBulkWhatsApp config net recipients campaignMessage hp).errors =
      ["WhatsApp API non configuré"] ∧
    attemptsOf (sendBulkWhatsApp config net recipients campaignMessage hp).trace = 0 ∧
    netCallsOf (sendBulkWhatsApp config net recipients campaignMessage hp).trace = 0 := by
  simp only [sendBulkWhatsApp, sendBulkWhatsAppWith, h, bulkDispatch_false]
  refine ⟨?_, ?_, ?_, ?_, ?_⟩ <;> trivial

/-- C2 witness: the not-configured contract evaluated on the all-empty
default configuration and two recipients. -/
theorem claim2_not_configured_witness :
    (sendBulkWhatsApp emptyConfig fixtureNet fixtureRecipients "Hi" true).sent = 0 ∧
    (sendBulkWhatsApp emptyConfig fixtureNet fixtureRecipients "Hi" true).failed =
      fixtureRecipients.length ∧
    (sendBulkWhatsApp emptyConfig fixtureNet fixtureRecipients "Hi" true).errors =
      ["WhatsApp API non configuré"] ∧
    attemptsOf (sendBulkWhatsApp emptyConfig fixtureNet fixtureRecipients "Hi" true).trace = 0 ∧
    netCallsOf (sendBulkWhatsApp emptyConfig fixtureNet fixtureRecipients "Hi" true).trace = 0 :=
  claim2_not_configured emptyConfig fixtureNet fixtureRecipients "Hi" true (by decide)

/-- C3 counterexample: the input `"4155551234"` has length exactly 10, so
the `length > 10` branch is not taken and the default regional code is
prepended: the result is `"+414155551234"`, not the `"+4155551234"` the
claim states. -/
theorem claim3_phone_cx : ¬ (formatPhoneE164 "4155551234" = "+4155551234") := by decide

/-- C3 (amended): `"0791234567"` normalizes to `"+41791234567"`,
`"+14155551234"` is returned unchanged, `"4155551234"` (ten characters,
no leading zero or plus, so not longer than 10) normalizes to
`"+414155551234"`, and an input actually longer than ten digits such as
`"41555512345"` normalizes to `"+41555512345"`. -/
theorem claim3_phone_examples :
    formatPhoneE164 "0791234567" = "+41791234567" ∧
    formatPhoneE164 "+14155551234" = "+14155551234" ∧
    formatPhoneE164 "4155551234" = "+414155551234" ∧
    formatPhoneE164 "41555512345" = "+41555512345" := by decide

/-- C4 counterexample: the source splits the contact name on the space
character only (`split(' ')`), so for the name `"Maria\tLopez"` — whose
first whitespace-delimited token is `"Maria"` — the placeholder is
replaced by the whole tab-separated name, not by `"Maria"` as the claim
states. -/
theorem claim4_render_cx :
    renderMessage "Hello {prénom}!" (some "Maria\tLopez") = "Hello Maria\tLopez!" ∧
    ¬ (renderMessage "Hello {prénom}!" (some "Maria\tLopez") = "Hello Maria!") := by decide

/-- C4 (amended): rendering replaces every occurrence of `{prénom}`,
matched case-insensitively, with the first space-delimited (U+0020)
token of the recipient's name when a non-empty name is present, and
leaves the template unchanged when the name is absent or empty:
`"Hello {prénom}!"` with `"Maria Lopez"` yields `"Hello Maria!"`, a
template with `{PRÉNOM}` and a second occurrence has both replaced, and
with no name the template is returned untouched. -/
theorem claim4_render_amended :
    (∀ t, renderMessage t none = t) ∧
    (∀ t, renderMessage t (some "") = t) ∧
    renderMessage "Hello {prénom}!" (some "Maria Lopez") = "Hello Maria!" ∧
    renderMessage "Hé {PRÉNOM}! Ça va {prénom}?" (some "Maria Lopez") =
      "Hé Maria! Ça va Maria?" := by
  refine ⟨fun t => rfl, fun t => ?_, by decide, by decide⟩
  simp [renderMessage]

/-- C5: with a complete configuration, whenever the normalized
destination number is shorter than 10 characters `sendWhatsAppMessage`
returns the normalized invalid-number failure (the source's literal
message for the spec's `invalid address` reason) and performs no network
call. -/
theorem claim5_short_number
    (config : Config) (net : NetResponse) (toPhone message : String)
    (contactName : Option String)
    (hc : configComplete config = true)
    (hshort : (formatPhoneE164 toPhone).length < 10) :
    sendWhatsAppMessage config net toPhone message contactName =
      ⟨.ok { success := false, error := some invalidNumberMsg }, 0, none⟩ := by
  simp only [sendWhatsAppMessage, hc, Bool.not_true, Bool.false_eq_true, if_false]
  rw [if_pos (Or.inr hshort)]

/-- C5 witness: the short-number rejection evaluated on the complete
fixture configuration and the raw number `"0"` (which normalizes to
`"+41"`, three characters). -/
theorem claim5_short_number_witness :
    sendWhatsAppMessage fixtureConfig (.ok "SM123" "queued") "0" "Hello" none =
      ⟨.ok { success := false, error := some invalidNumberMsg }, 0, none⟩ :=
  claim5_short_number fixtureConfig (.ok "SM123" "queued") "0" "Hello" none
    (by decide) (by decide)

/-- C6 counterexample: in a dispatch run over two recipients with an
incomplete configuration, the loop is never entered and no delay occurs
at all, not the N − 1 = 1 delay the claim asserts for every run of
N ≥ 2 recipients. -/
theorem claim6_delay_cx :
    ¬ ((delaysOf (sendBulkWhatsApp emptyConfig fixtureNet
          [⟨"0791234567", none⟩, ⟨"0787654321", none⟩] "Hi" false).trace).length = 1) := by
  decide

/-- C6 (amended): in every dispatch run with complete configuration the
engine suspends for the provider-specific fixed delay (500 ms for
WhatsApp, 200 ms for email) exactly N − 1 times for N recipients (so
N − 1 times for N ≥ 2 and never for N ≤ 1), once between each pair of
consecutive send attempts and never after the final recipient: the
recorded trace equals the reference shape `loopTraceSpec`, in which the
single delay sits exactly between the attempts of consecutive
recipients; with incomplete configuration no delay occurs. -/
theorem claim6_delays
    (config : Config) (net : Nat → NetResponse) (recipients : List Recipient)
    (campaignMessage : String) (hp : Bool)
    (configured : Bool) (adapter : Nat → Recipient → AdapterBehavior)
    (recipients2 : List Recipient) (hp2 : Bool) :
    (configComplete config = true →
      (sendBulkWhatsApp config net recipients campaignMessage hp).trace =
          loopTraceSpec 500 (twilioAdapter config net campaignMessage) hp
            recipients.length 0 recipients ++
            (if hp then
              [Event.progress recipients.length recipients.length "completed" none]
             else []) ∧
        delaysOf (sendBulkWhatsApp config net recipients campaignMessage hp).trace =
          List.replicate (recipients.length - 1) 500 ∧
        delaysOf (afterLastAttempt
          (sendBulkWhatsApp config net recipients campaignMessage hp).trace) = []) ∧
    (configComplete config = false →
      delaysOf (sendBulkWhatsApp config net recipients campaignMessage hp).trace = []) ∧
    (configured = true →
      (sendBulkEmails configured adapter recipients2 hp2).trace =
          loopTraceSpec 200 adapter hp2 recipients2.length 0 recipients2 ++
            (if hp2 then
              [Event.progress recipients2.length recipients2.length "completed" none]
             else []) ∧
        delaysOf (sendBulkEmails configured adapter recipients2 hp2).trace =
          List.replicate (recipients2.length - 1) 200 ∧
        delaysOf (afterLastAttempt
          (sendBulkEmails configured adapter recipients2 hp2).trace) = []) := by
  refine ⟨fun h => ⟨?_, ?_⟩, fun h => ?_, fun h => ⟨?_, ?_⟩⟩
  · simp only [sendBulkWhatsApp, sendBulkWhatsAppWith, h]
    exact bulkDispatch_trace_spec _ _ _ _ _ _
  · simp only [sendBulkWhatsApp, sendBulkWhatsAppWith, h]
    exact bulkDispatch_delays _ _ _ _ _ _
  · simp only [sendBulkWhatsApp, sendBulkWhatsAppWith, h, bulkDispatch_false]
    rfl
  · simp only [sendBulkEmails, h]
    exact bulkDispatch_trace_spec _ _ _ _ _ _
  · simp only [sendBulkEmails, h]
    exact bulkDispatch_delays _ _ _ _ _ _

/-- C6 witness: the delay contract evaluated on a complete configuration
and two recipients (trace equal to the reference interleaving, exactly
one 500 ms delay, none after the last attempt). -/
theorem claim6_delays_witness :
    (sendBulkWhatsApp fixtureConfig fixtureNet fixtureRecipients "Hi" true).trace =
        loopTraceSpec 500 (twilioAdapter fixtureConfig fixtureNet "Hi") true
          fixtureRecipients.length 0 fixtureRecipients ++
          [Event.progress fixtureRecipients.length fixtureRecipients.length "completed" none] ∧
      delaysOf (sendBulkWhatsApp fixtureConfig fixtureNet fixtureRecipients "Hi" true).trace =
        List.replicate (fixtureRecipients.length - 1) 500 ∧
      delaysOf (afterLastAttempt
        (sendBulkWhatsApp fixtureConfig fixtureNet fixtureRecipients "Hi" true).trace) = [] :=
  (claim6_delays fixtureConfig fixtureNet fixtureRecipients "Hi" true
      true fixtureAdapter fixtureRecipients true).1 (by decide)

/-- C7: the WhatsApp bulk dispatch never raises past its own boundary:
for every configuration, recipient list, progress flag and every
behaviour of the per-recipient single send — including behaviours that
throw (`Except.error`) instead of returning a normalized failure — the
run with each thrown error replaced by the equally-shaped normalized
failure result is literally the same `BulkRun`, and the returned ledger
always accounts for every recipient (`sent + failed = N`). -/
theorem claim7_error_containment
    (config : Config) (adapter : Nat → Recipient → AdapterBehavior)
    (recipients : List Recipient) (hp : Bool) :
    sendBulkWhatsAppWith config (fun i r => normalizeBehavior (adapter i r)) recipients hp =
        sendBulkWhatsAppWith config adapter recipients hp ∧
      (sendBulkWhatsAppWith config adapter recipients hp).sent +
          (sendBulkWhatsAppWith config adapter recipients hp).failed = recipients.length := by
  refine ⟨?_, (bulkDispatch_ledger _ _ _ _ _ _ _).1⟩
  exact bulkDispatch_normalize _ _ _ _ _ _ _

/-- C8: with a progress callback supplied and a complete configuration,
a run over N recipients records exactly N + 1 progress invocations, in
order: `(i + 1, N, "sending", name-or-address)` for each recipient in
input order, each emitted immediately before that recipient's send
attempt (the full trace equals the reference interleaving
`loopTraceSpec` followed by the final progress event), then exactly one
`(N, N, "completed")` after the loop, after the last send attempt. -/
theorem claim8_progress_contract
    (config : Config) (net : Nat → NetResponse) (recipients : List Recipient)
    (campaignMessage : String)
    (h : configComplete config = true) :
    (sendBulkWhatsApp config net recipients campaignMessage true).trace =
        loopTraceSpec 500 (twilioAdapter config net campaignMessage) true
          recipients.length 0 recipients ++
          [Event.progress recipients.length recipients.length "completed" none] ∧
      progressOf (sendBulkWhatsApp config net recipients campaignMessage true).trace =
        sendingEventsFrom recipients.length 0 recipients ++
          [(recipients.length, recipients.length, "completed", none)] ∧
      (progressOf (sendBulkWhatsApp config net recipients campaignMessage true).trace).length =
        recipients.length + 1 := by
  have h0 : (sendBulkWhatsApp config net recipients campaignMessage true).trace =
      loopTraceSpec 500 (twilioAdapter config net campaignMessage) true
        recipients.length 0 recipients ++
        [Event.progress recipients.length recipients.length "completed" none] := by
    simp only [sendBulkWhatsApp, sendBulkWhatsAppWith, h]
    exact bulkDispatch_trace_spec _ _ _ _ _ _
  have h1 : progressOf (sendBulkWhatsApp config net recipients campaignMessage true).trace =
      sendingEventsFrom recipients.length 0 recipients ++
        [(recipients.length, recipients.length, "completed", none)] := by
    simp only [sendBulkWhatsApp, sendBulkWhatsAppWith, h]
    exact bulkDispatch_progress _ _ _ _ _
  refine ⟨h0, h1, ?_⟩
  rw [h1]
  simp [sendingEventsFrom_length]

/-- C8 witness: the progress contract evaluated on a complete
configuration and two recipients (trace equal to the reference
interleaving; three invocations: sending 1/2, sending 2/2, completed). -/
theorem claim8_progress_witness :
    (sendBulkWhatsApp fixtureConfig fixtureNet fixtureRecipients "Hi" true).trace =
        loopTraceSpec 500 (twilioAdapter fixtureConfig fixtureNet "Hi") true
          fixtureRecipients.length 0 fixtureRecipients ++
          [Event.progress fixtureRecipients.length fixtureRecipients.length "completed" none] ∧
      progressOf (sendBulkWhatsApp fixtureConfig fixtureNet fixtureRecipients "Hi" true).trace =
        sendingEventsFrom fixtureRecipients.length 0 fixtureRecipients ++
          [(fixtureRecipients.length, fixtureRecipients.length, "completed", none)] ∧
      (progressOf (sendBulkWhatsApp fixtureConfig fixtureNet
          fixtureRecipients "Hi" true).trace).length = fixtureRecipients.length + 1 :=
  claim8_progress_contract fixtureConfig fixtureNet fixtureRecipients "Hi" (by decide)

/-- C9: `getWhatsAppConfig` is total over every storage-read outcome and
returns either the default configuration or the parsed stored
configuration, and the latter only when all three credential fields are
non-empty — so every non-default return value is complete. -/
theorem claim9_config_fallback (d : Config) (read : ConfigRead) :
    getWhatsAppConfig d read = d ∨
      (read = .parsed (getWhatsAppConfig d read) ∧
        configComplete (getWhatsAppConfig d read) = true) := by
  cases read with
  | readThrows => exact Or.inl rfl
  | absent => exact Or.inl rfl
  | parseThrows => exact Or.inl rfl
  | parsed c =>
    cases hc : configComplete c with
    | false => left; simp [getWhatsAppConfig, hc]
    | true => right; constructor <;> simp [getWhatsAppConfig, hc]

/-- C10: `formatPhoneE164` is idempotent, and its output is either the
empty string (exactly for the empty input) or a string whose first
character is `'+'` and whose characters are all digits or `'+'`. -/
theorem claim10_phone_idempotent (p : String) :
    formatPhoneE164 (formatPhoneE164 p) = formatPhoneE164 p ∧
      (formatPhoneE164 p = "" ∨
        ((formatPhoneE164 p).data.head? = some '+' ∧
          (formatPhoneE164 p).data.all keepChar = true)) := by
  by_cases hp : p = ""
  · subst hp
    exact ⟨rfl, Or.inl rfl⟩
  · have hdata : (formatPhoneE164 p).data = formatCore p.data := formatPhoneE164_data p hp
    have hne := formatPhoneE164_ne_empty p hp
    constructor
    · rw [formatPhoneE164, if_neg hne, hdata, formatCore_idem]
      rw [formatPhoneE164, if_neg hp]
    · right
      rw [hdata]
      exact ⟨formatCore_head _,
        List.all_eq_true.mpr (fun c hc => formatCore_all_keep _ c hc)⟩

end Afroboost
